import Mathlib

/-!
Verification of the resume-request backend (`src/server.js`).

The server keeps a MySQL table `resume_requests` with columns
(id, name, email, reason, status, created_at, approved_at) and exposes
four handlers:

* `POST /request-resume`   — Submit     (`requestResume` below)
* `GET /request-status/:e` — GetStatus  (`requestStatus` below)
* `GET /admin-approve/:id` — Approve    (`adminApprove` below), which also
  schedules a delayed background check (`autoExpireCheck` below)
* `GET /download-resume/:id` — Download (`downloadResume` below)

The database is modelled as a list of rows, timestamps as integers
(milliseconds), and SQL NULL as `Option`.  The nodemailer `sendMail`
call can reject; since it is awaited inside each handler's `try` block,
its outcome is passed in as a boolean `mailOk` and a rejection is routed
to the handler's generic catch, exactly as in the source.
-/

/-- One row of the `resume_requests` table. -/
structure Request where
  id : Nat
  name : String
  email : String
  reason : String
  status : String
  created_at : Int
  approved_at : Option Int
deriving DecidableEq, Repr

/-- Server-side state: the table rows plus the AUTO_INCREMENT counter
that produces `result.insertId`. -/
structure St where
  db : List Request
  nextId : Nat
deriving DecidableEq, Repr

/-- The observable outcomes of the four handlers (`res.status(...)` calls
in `src/server.js`), abstracted from their HTTP encoding. -/
inductive Resp where
  | validationError
  | created (id : Nat)
  | statusNone
  | statusInfo (status : String) (id : Nat) (approvedAt : Option Int)
  | notFound
  | approvedHtml
  | forbidden (msg : String)
  | fileDownload (fileName : String)
  | serverError
deriving DecidableEq, Repr

/-- `const LINK_EXPIRY_MS = 3 * 60 * 1000` (server.js line 48). -/
def LINK_EXPIRY_MS : Int := 3 * 60 * 1000

/-- Body of the 403 `"❌ Request not approved."` response (line 187). -/
def notApprovedMsg : String := "Request not approved."

/-- Body of the 403 `"Approval timestamp missing."` response (line 189). -/
def missingTimestampMsg : String := "Approval timestamp missing."

/-- Body of the 403 `"⏳ Your approval has expired. Please request again."`
response (line 198). -/
def expiredMsg : String := "Your approval has expired. Please request again."

/-- JavaScript falsiness of a request-body string field: the field is
absent (`undefined`) or the empty string. -/
def isBlank : Option String → Bool
  | none => true
  | some s => s == ""

/-- `SELECT * FROM resume_requests WHERE id = ?` (first row). -/
def findById (db : List Request) (i : Nat) : Option Request :=
  db.find? (fun r => r.id == i)

/-- `UPDATE resume_requests SET ... WHERE id = ?`: apply `f` to every row
whose id matches. -/
def updateById (db : List Request) (i : Nat) (f : Request → Request) : List Request :=
  db.map (fun r => if r.id == i then f r else r)

/-- Row change of Approve's `UPDATE ... SET status='approved', approved_at=?`. -/
def approveRow (now : Int) (x : Request) : Request :=
  { x with status := "approved", approved_at := some now }

/-- Row change of the background check's `UPDATE ... SET status='expired'`:
the `approved_at` column is not mentioned, hence untouched. -/
def expireRowKeep (x : Request) : Request :=
  { x with status := "expired" }

/-- Row change of Download's `UPDATE ... SET status='expired', approved_at=NULL`. -/
def expireRowClear (x : Request) : Request :=
  { x with status := "expired", approved_at := none }

/-- The row INSERTed by `/request-resume`: status `pending`, current
creation timestamp, `approved_at = NULL`, id from AUTO_INCREMENT. -/
def newRow (st : St) (now : Int) (name email reason : Option String) : Request :=
  { id := st.nextId, name := name.getD "", email := email.getD "",
    reason := reason.getD "", status := "pending",
    created_at := now, approved_at := none }

/-- Handler of `POST /request-resume` (server.js lines 53–97).
Validates the three body fields, INSERTs a `pending` row with
`approved_at = NULL`, then (when `ADMIN_EMAIL` is set, `adminEmailSet`)
awaits `sendMail`; a rejection (`mailOk = false`) is caught by the
handler's catch and answered with 500, the INSERT already committed.
Otherwise responds `201` with `result.insertId`. -/
def requestResume (st : St) (now : Int) (name email reason : Option String)
    (adminEmailSet : Bool) (mailOk : Bool) : Resp × St :=
  if isBlank name || isBlank email || isBlank reason then
    (Resp.validationError, st)
  else
    let st' : St :=
      { db := st.db ++ [newRow st now name email reason], nextId := st.nextId + 1 }
    if adminEmailSet && !mailOk then (Resp.serverError, st')
    else (Resp.created st.nextId, st')

/-- Handler of `GET /request-status/:email` (server.js lines 102–112):
`SELECT * FROM resume_requests WHERE email=? ORDER BY id DESC LIMIT 1`,
modelled as a fold keeping the row with the largest id. -/
def pickLatest (acc : Option Request) (r : Request) : Option Request :=
  match acc with
  | none => some r
  | some b => if b.id < r.id then some r else some b

/-- The row selected by `ORDER BY id DESC LIMIT 1` among the rows with
the given email, if any. -/
def latestByEmail (db : List Request) (email : String) : Option Request :=
  (db.filter (fun r => r.email == email)).foldl pickLatest none

/-- Handler of `GET /request-status/:email`: `{status:"none"}` when no
row matches, else the status, id and approved_at of the latest row.
Read-only: it issues no UPDATE. -/
def requestStatus (st : St) (email : String) : Resp :=
  match latestByEmail st.db email with
  | none => Resp.statusNone
  | some r => Resp.statusInfo r.status r.id r.approved_at

/-- Handler of `GET /admin-approve/:requestId` (server.js lines 117–175).
404 when the id resolves to no row; otherwise an unconditional
`UPDATE ... SET status='approved', approved_at=?` with the current time,
then `sendMail` to the requester when `rows[0].email` is truthy — a
rejection falls into the catch and yields 500, the UPDATE already
committed.  On success the friendly HTML confirmation is returned. -/
def adminApprove (st : St) (i : Nat) (now : Int) (mailOk : Bool) : Resp × St :=
  match findById st.db i with
  | none => (Resp.notFound, st)
  | some r =>
    let st' : St := { st with db := updateById st.db i (approveRow now) }
    if r.email = "" then (Resp.approvedHtml, st')
    else if mailOk then (Resp.approvedHtml, st') else (Resp.serverError, st')

/-- The delayed background check scheduled by `setTimeout` in
`/admin-approve` (server.js lines 156–167): re-SELECT the row's status
and, only if it is still `approved`, `UPDATE ... SET status='expired'`
— note the UPDATE does not touch `approved_at`. -/
def autoExpireCheck (db : List Request) (i : Nat) : List Request :=
  match findById db i with
  | none => db
  | some r =>
    if r.status == "approved" then
      updateById db i expireRowKeep
    else db

/-- Handler of `GET /download-resume/:requestId` (server.js lines 180–208).
404 when no row; generic 403 when status is not `approved`; 403
"Approval timestamp missing." when `approved_at` is NULL; if the elapsed
time since `approved_at` strictly exceeds `LINK_EXPIRY_MS`, an UPDATE
sets status `expired` and clears `approved_at`, answering the distinct
expired 403; otherwise the file is served and nothing is written. -/
def downloadResume (db : List Request) (i : Nat) (now : Int) : Resp × List Request :=
  match findById db i with
  | none => (Resp.notFound, db)
  | some r =>
    if r.status = "approved" then
      match r.approved_at with
      | none => (Resp.forbidden missingTimestampMsg, db)
      | some t =>
        if LINK_EXPIRY_MS < now - t then
          (Resp.forbidden expiredMsg, updateById db i expireRowClear)
        else (Resp.fileDownload "Chakit_Resume.pdf", db)
    else (Resp.forbidden notApprovedMsg, db)

/-! Concrete fixture rows used by counterexamples and witnesses. -/

/-- A pending fixture row. -/
def rqPending : Request :=
  { id := 1, name := "Alice", email := "a@x.com", reason := "review",
    status := "pending", created_at := 0, approved_at := none }

/-- An approved fixture row with a non-null approval timestamp. -/
def rqApproved : Request :=
  { id := 1, name := "Alice", email := "a@x.com", reason := "review",
    status := "approved", created_at := 0, approved_at := some 5 }

/-- A second fixture row by the same email with a higher id. -/
def rqSecond : Request :=
  { id := 2, name := "Alice", email := "a@x.com", reason := "again",
    status := "approved", created_at := 10, approved_at := some 20 }

/-- An approved fixture row whose approval timestamp is NULL. -/
def rqApprovedNoTs : Request :=
  { id := 1, name := "Alice", email := "a@x.com", reason := "review",
    status := "approved", created_at := 0, approved_at := none }

/-- An expired fixture row. -/
def rqExpired : Request :=
  { id := 1, name := "Alice", email := "a@x.com", reason := "review",
    status := "expired", created_at := 0, approved_at := none }

/-! Helper lemmas about the row-store primitives. -/

/-- A row returned by `findById db i` has id `i`. -/
theorem findById_id (db : List Request) (i : Nat) (r : Request)
    (h : findById db i = some r) : r.id = i := by
  have := List.find?_some h
  simpa using this

/-- Looking up the updated id after `updateById` returns the updated row. -/
theorem findById_updateById (db : List Request) (i : Nat) (f : Request → Request)
    (hf : ∀ x, (f x).id = x.id) :
    findById (updateById db i f) i = (findById db i).map f := by
  induction db with
  | nil => rfl
  | cons x xs ih =>
    by_cases h : x.id = i
    · simp only [findById, updateById, List.map_cons] at ih ⊢
      rw [List.find?_cons_of_pos _ (by simp [h, hf]),
          List.find?_cons_of_pos _ (by simp [h])]
      simp [h]
    · simp only [findById, updateById, List.map_cons] at ih ⊢
      rw [List.find?_cons_of_neg _ (by simp [h, hf]),
          List.find?_cons_of_neg _ (by simp [h])]
      exact ih

/-- `findById` ignores rows appended on the right when it already finds a
row on the left. -/
theorem findById_append (db : List Request) (l : List Request) (i : Nat) (r : Request)
    (h : findById db i = some r) : findById (db ++ l) i = some r := by
  simp only [findById, List.find?_append] at h ⊢
  rw [h]
  rfl

/-- `updateById` never changes the `approved_at` column beyond what the
per-row update function does; specialised to a status-only update, the
`approved_at` column is untouched. -/
theorem updateById_map_approved_at (db : List Request) (i : Nat)
    (f : Request → Request) (hf : ∀ x, (f x).approved_at = x.approved_at) :
    (updateById db i f).map Request.approved_at = db.map Request.approved_at := by
  induction db with
  | nil => rfl
  | cons x xs ih =>
    simp only [updateById, List.map_cons] at ih ⊢
    refine congrArg₂ List.cons ?_ ih
    by_cases h : x.id = i
    · simp [h, hf]
    · simp [h]

/-- Case analysis of one `pickLatest` step: the result is the new row or
the accumulator, and its id dominates both. -/
theorem pickLatest_cases (acc : Option Request) (x c : Request)
    (h : pickLatest acc x = some c) :
    (c = x ∨ acc = some c) ∧ x.id ≤ c.id ∧ (∀ b, acc = some b → b.id ≤ c.id) := by
  cases acc with
  | none =>
    simp only [pickLatest, Option.some.injEq] at h
    exact ⟨Or.inl h.symm, by rw [h], fun b hb => by cases hb⟩
  | some b =>
    by_cases hb : b.id < x.id
    · simp only [pickLatest, if_pos hb, Option.some.injEq] at h
      subst h
      exact ⟨Or.inl rfl, Nat.le_refl _, fun b' hb' => by
        cases hb'; exact Nat.le_of_lt hb⟩
    · simp only [pickLatest, if_neg hb, Option.some.injEq] at h
      subst h
      exact ⟨Or.inr rfl, Nat.le_of_not_lt hb, fun b' hb' => by
        cases hb'; exact Nat.le_refl _⟩

/-- Folding `pickLatest` from a non-empty accumulator stays non-empty. -/
theorem foldl_pickLatest_isSome (l : List Request) (b : Request) :
    (l.foldl pickLatest (some b)).isSome := by
  induction l generalizing b with
  | nil => rfl
  | cons x xs ih =>
    simp only [List.foldl_cons]
    by_cases hb : b.id < x.id
    · simpa [pickLatest, hb] using ih x
    · simpa [pickLatest, hb] using ih b

/-- Full specification of the `pickLatest` fold: the result comes from
the list or the accumulator and its id is maximal. -/
theorem foldl_pickLatest_spec (l : List Request) (acc : Option Request) (m : Request)
    (h : l.foldl pickLatest acc = some m) :
    (m ∈ l ∨ acc = some m) ∧ (∀ x ∈ l, x.id ≤ m.id) ∧
      (∀ b, acc = some b → b.id ≤ m.id) := by
  induction l generalizing acc with
  | nil =>
    simp only [List.foldl_nil] at h
    refine ⟨Or.inr h, by simp, fun b hb => ?_⟩
    rw [h] at hb
    cases hb
    exact Nat.le_refl _
  | cons x xs ih =>
    simp only [List.foldl_cons] at h
    obtain ⟨hmem, hmax, hacc⟩ := ih (pickLatest acc x) h
    have hstep : ∀ c, pickLatest acc x = some c →
        (c = x ∨ acc = some c) ∧ x.id ≤ c.id ∧ ∀ b, acc = some b → b.id ≤ c.id :=
      fun c hc => pickLatest_cases acc x c hc
    have hsome : (pickLatest acc x).isSome := by
      cases acc with
      | none => rfl
      | some b =>
        by_cases hb : b.id < x.id <;> simp [pickLatest, hb]
    obtain ⟨c, hc⟩ := Option.isSome_iff_exists.mp hsome
    obtain ⟨hcorig, hxle, hble⟩ := hstep c hc
    have hcm : c.id ≤ m.id := hacc c hc
    refine ⟨?_, ?_, ?_⟩
    · rcases hmem with hm | hm
      · exact Or.inl (List.mem_cons_of_mem _ hm)
      · obtain ⟨horig, _, _⟩ := hstep m hm
        rcases horig with h1 | h1
        · exact Or.inl (h1 ▸ List.mem_cons_self x xs)
        · exact Or.inr h1
    · intro y hy
      rcases List.mem_cons.mp hy with h1 | h1
      · exact h1 ▸ Nat.le_trans hxle hcm
      · exact hmax y h1
    · intro b hb
      exact Nat.le_trans (hble b hb) hcm

/-- The row selected by `latestByEmail` matches the email filter and has
the maximal id among all matching rows. -/
theorem latestByEmail_spec (db : List Request) (e : String) (m : Request)
    (h : latestByEmail db e = some m) :
    m ∈ db.filter (fun r => r.email == e) ∧
      ∀ x ∈ db.filter (fun r => r.email == e), x.id ≤ m.id := by
  obtain ⟨hmem, hmax, _⟩ := foldl_pickLatest_spec _ none m h
  exact ⟨hmem.resolve_right (by simp), hmax⟩

/-- Shape of the state after `adminApprove` finds a row: the unconditional
UPDATE is committed in every branch (mail sent, mail failed, mail skipped),
and re-reading the id yields the re-stamped row. -/
theorem adminApprove_db_found (st : St) (i : Nat) (now : Int) (mailOk : Bool) (r : Request)
    (hfind : findById st.db i = some r) :
    (adminApprove st i now mailOk).2 =
      { st with db := updateById st.db i (approveRow now) }
  ∧ findById (adminApprove st i now mailOk).2.db i = some (approveRow now r) := by
  have h2 : (adminApprove st i now mailOk).2 =
      { st with db := updateById st.db i (approveRow now) } := by
    by_cases he : r.email = ""
    · simp [adminApprove, hfind, he]
    · by_cases hm : mailOk <;> simp [adminApprove, hfind, he, hm]
  refine ⟨h2, ?_⟩
  rw [h2]
  show findById (updateById st.db i (approveRow now)) i = _
  rw [findById_updateById st.db i (approveRow now) (fun x => rfl), hfind]
  rfl

/-- Shape of the result of `requestResume` on valid input: the INSERT is
committed in every branch, the counter advances, and the response is 201
with the fresh id unless an attempted admin notification failed. -/
theorem requestResume_shape (st : St) (now : Int) (name email reason : Option String)
    (adminSet mailOk : Bool)
    (hvalid : (isBlank name || isBlank email || isBlank reason) = false) :
    (requestResume st now name email reason adminSet mailOk).2 =
      { db := st.db ++ [newRow st now name email reason], nextId := st.nextId + 1 }
  ∧ (requestResume st now name email reason adminSet mailOk).1 =
      (if adminSet && !mailOk then Resp.serverError else Resp.created st.nextId) := by
  by_cases hmail : (adminSet && !mailOk) = true
  · simp [requestResume, hvalid, hmail]
  · simp [requestResume, hvalid, hmail]

/-- When some row matches the email, `latestByEmail` selects a row. -/
theorem latestByEmail_isSome (db : List Request) (e : String)
    (h : db.filter (fun r => r.email == e) ≠ []) :
    (latestByEmail db e).isSome := by
  unfold latestByEmail
  cases hf : db.filter (fun r => r.email == e) with
  | nil => exact absurd hf h
  | cons x xs =>
    simp only [List.foldl_cons]
    have : pickLatest none x = some x := rfl
    rw [this]
    exact foldl_pickLatest_isSome xs x

/-! Claim theorems. -/

/-- Claim C4: for a Request stored as `approved` with a non-null
`approved_at`, a Download whose elapsed time since `approved_at` strictly
exceeds `LINK_EXPIRY_MS` answers the distinct expired message (not the
generic forbidden one), afterwards the stored row has status `expired`
with `approved_at` null, and no document bytes are returned. -/
theorem C4_download_expired (db : List Request) (i : Nat) (now : Int) (r : Request) (t : Int)
    (hfind : findById db i = some r) (hst : r.status = "approved")
    (hat : r.approved_at = some t) (hlate : LINK_EXPIRY_MS < now - t) :
    (downloadResume db i now).1 = Resp.forbidden expiredMsg
  ∧ Resp.forbidden expiredMsg ≠ Resp.forbidden notApprovedMsg
  ∧ findById (downloadResume db i now).2 i = some (expireRowClear r)
  ∧ (downloadResume db i now).1 ≠ Resp.fileDownload "Chakit_Resume.pdf" := by
  have hdl : downloadResume db i now =
      (Resp.forbidden expiredMsg, updateById db i expireRowClear) := by
    simp [downloadResume, hfind, hst, hat, hlate]
  refine ⟨by rw [hdl], by decide, ?_, by rw [hdl]; simp⟩
  rw [hdl]
  show findById (updateById db i expireRowClear) i = _
  rw [findById_updateById db i expireRowClear (fun x => rfl), hfind]
  rfl

/-- Witness for C4 on a concrete approved fixture past the window. -/
theorem C4_witness :
    (downloadResume [rqApproved] 1 300000).1 = Resp.forbidden expiredMsg
  ∧ findById (downloadResume [rqApproved] 1 300000).2 1 = some (expireRowClear rqApproved) :=
  ⟨(C4_download_expired [rqApproved] 1 300000 rqApproved 5 (by decide) rfl rfl (by decide)).1,
   (C4_download_expired [rqApproved] 1 300000 rqApproved 5 (by decide) rfl rfl (by decide)).2.2.1⟩

/-- Claim C5: a Download on an `approved` Request with non-null
`approved_at` within the expiry window serves the document and leaves the
whole store unchanged, so the link is reusable until it expires. -/
theorem C5_download_within (db : List Request) (i : Nat) (now : Int) (r : Request) (t : Int)
    (hfind : findById db i = some r) (hst : r.status = "approved")
    (hat : r.approved_at = some t) (hok : now - t ≤ LINK_EXPIRY_MS) :
    downloadResume db i now = (Resp.fileDownload "Chakit_Resume.pdf", db) := by
  have hnot : ¬ LINK_EXPIRY_MS < now - t := Int.not_lt.mpr hok
  simp [downloadResume, hfind, hst, hat, hnot]

/-- Witness for C5 on a concrete approved fixture inside the window. -/
theorem C5_witness :
    downloadResume [rqApproved] 1 100 = (Resp.fileDownload "Chakit_Resume.pdf", [rqApproved]) :=
  C5_download_within [rqApproved] 1 100 rqApproved 5 (by decide) rfl rfl (by decide)

/-- Claim C10: a Download on a row stored as `approved` whose
`approved_at` is NULL answers the forbidden "Approval timestamp missing."
response, serves nothing, and writes nothing. -/
theorem C10_missing_timestamp (db : List Request) (i : Nat) (now : Int) (r : Request)
    (hfind : findById db i = some r) (hst : r.status = "approved")
    (hat : r.approved_at = none) :
    downloadResume db i now = (Resp.forbidden missingTimestampMsg, db) := by
  simp [downloadResume, hfind, hst, hat]

/-- Witness for C10 on a concrete approved fixture without a timestamp. -/
theorem C10_witness :
    downloadResume [rqApprovedNoTs] 1 0 = (Resp.forbidden missingTimestampMsg, [rqApprovedNoTs]) :=
  C10_missing_timestamp [rqApprovedNoTs] 1 0 rqApprovedNoTs (by decide) rfl rfl

/-- Counterexample to claim C6 as stated: a Download on a Request whose
stored status is `expired` answers the generic forbidden message
"Request not approved.", not the distinct expired message the claim
requires. -/
theorem C6_counterexample :
    downloadResume [rqExpired] 1 100 = (Resp.forbidden notApprovedMsg, [rqExpired])
  ∧ Resp.forbidden notApprovedMsg ≠ Resp.forbidden expiredMsg := by
  refine ⟨by decide, by decide⟩

/-- Claim C6 (amended): a Download on a Request whose stored status is
not `approved` — in particular `pending` or `expired` — fails with the
generic forbidden response in both cases, changes nothing, and never
returns document bytes; the distinct expired message only arises on the
call that discovers expiry of an `approved` row. -/
theorem C6_not_approved (db : List Request) (i : Nat) (now : Int) (r : Request)
    (hfind : findById db i = some r) (hst : ¬ r.status = "approved") :
    downloadResume db i now = (Resp.forbidden notApprovedMsg, db)
  ∧ (downloadResume db i now).1 ≠ Resp.fileDownload "Chakit_Resume.pdf" := by
  have h1 : downloadResume db i now = (Resp.forbidden notApprovedMsg, db) := by
    simp [downloadResume, hfind, hst]
  exact ⟨h1, by rw [h1]; simp⟩

/-- Witness for the amended C6 on pending and expired fixtures. -/
theorem C6_witness :
    downloadResume [rqPending] 1 100 = (Resp.forbidden notApprovedMsg, [rqPending])
  ∧ downloadResume [rqExpired] 1 100 = (Resp.forbidden notApprovedMsg, [rqExpired]) :=
  ⟨(C6_not_approved [rqPending] 1 100 rqPending (by decide) (by decide)).1,
   (C6_not_approved [rqExpired] 1 100 rqExpired (by decide) (by decide)).1⟩

/-- Claim C7: Approve on an identifier that resolves to an existing row —
whatever its current status — re-stamps the row to status `approved` with
`approved_at` equal to the current time (re-invocation restarts the
window); Approve on an identifier resolving to no row answers
`NotFoundError` and leaves the store untouched. -/
theorem C7_approve (st : St) (i : Nat) (now : Int) (mailOk : Bool) :
    (∀ r, findById st.db i = some r →
      findById (adminApprove st i now mailOk).2.db i = some (approveRow now r))
  ∧ (findById st.db i = none →
      adminApprove st i now mailOk = (Resp.notFound, st)) := by
  constructor
  · intro r hfind
    exact (adminApprove_db_found st i now mailOk r hfind).2
  · intro hnone
    simp [adminApprove, hnone]

/-- Witness for C7: re-approving an expired fixture re-stamps it, and an
unknown id answers not-found with the state unchanged. -/
theorem C7_witness :
    findById (adminApprove ⟨[rqExpired], 2⟩ 1 50 true).2.db 1 = some (approveRow 50 rqExpired)
  ∧ adminApprove ⟨[rqExpired], 2⟩ 7 50 true = (Resp.notFound, ⟨[rqExpired], 2⟩) :=
  ⟨(C7_approve ⟨[rqExpired], 2⟩ 1 50 true).1 rqExpired (by decide),
   (C7_approve ⟨[rqExpired], 2⟩ 7 50 true).2 (by decide)⟩

/-- Claim C9: GetStatus answers `none` (a non-error outcome) when no row
matches the email, and otherwise reports status, id and approval
timestamp of the matching row with the highest identifier. -/
theorem C9_status (st : St) (e : String) :
    (st.db.filter (fun r => r.email == e) = [] → requestStatus st e = Resp.statusNone)
  ∧ (∀ r, latestByEmail st.db e = some r →
      requestStatus st e = Resp.statusInfo r.status r.id r.approved_at
      ∧ r ∈ st.db.filter (fun x => x.email == e)
      ∧ ∀ x ∈ st.db.filter (fun x => x.email == e), x.id ≤ r.id)
  ∧ (st.db.filter (fun r => r.email == e) ≠ [] → (latestByEmail st.db e).isSome) := by
  refine ⟨?_, ?_, latestByEmail_isSome st.db e⟩
  · intro hnil
    unfold requestStatus latestByEmail
    rw [hnil]
    rfl
  · intro r hr
    obtain ⟨hmem, hmax⟩ := latestByEmail_spec st.db e r hr
    refine ⟨?_, hmem, hmax⟩
    unfold requestStatus
    rw [hr]

/-- Witness for C9: an unknown email reports `none`; with two rows for
the same email the one with the higher id (here id 2) is reported. -/
theorem C9_witness :
    requestStatus ⟨[rqPending], 2⟩ "b@x.com" = Resp.statusNone
  ∧ requestStatus ⟨[rqPending, rqSecond], 3⟩ "a@x.com" =
      Resp.statusInfo rqSecond.status rqSecond.id rqSecond.approved_at :=
  ⟨(C9_status ⟨[rqPending], 2⟩ "b@x.com").1 rfl,
   ((C9_status ⟨[rqPending, rqSecond], 3⟩ "a@x.com").2.1 rqSecond (by decide)).1⟩

/-- Counterexample to claim C1 as stated: starting from an approved row
with `approved_at = 5`, the delayed background check transitions the row
to `expired` while leaving `approved_at` at 5, not null. -/
theorem C1_counterexample :
    (findById (autoExpireCheck [rqApproved] 1) 1).map Request.status = some "expired"
  ∧ (findById (autoExpireCheck [rqApproved] 1) 1).map Request.approved_at = some (some 5) := by
  refine ⟨by decide, by decide⟩

/-- Claim C1 (amended): only the expiry check in Download clears
`approved_at` — whenever Download answers the expired response the row it
wrote has status `expired` and `approved_at` null — while the delayed
background check scheduled by Approve leaves the `approved_at` column of
every row unchanged. -/
theorem C1_expiry_paths (db : List Request) (i : Nat) (now : Int) (r : Request)
    (h1 : (downloadResume db i now).1 = Resp.forbidden expiredMsg)
    (h2 : findById (downloadResume db i now).2 i = some r) :
    (r.status = "expired" ∧ r.approved_at = none)
  ∧ (autoExpireCheck db i).map Request.approved_at = db.map Request.approved_at := by
  constructor
  · cases hfind : findById db i with
    | none =>
      have hres : downloadResume db i now = (Resp.notFound, db) := by
        simp [downloadResume, hfind]
      rw [hres] at h1
      simp at h1
    | some r0 =>
      by_cases hst : r0.status = "approved"
      · cases hat : r0.approved_at with
        | none =>
          have hres : downloadResume db i now = (Resp.forbidden missingTimestampMsg, db) := by
            simp [downloadResume, hfind, hst, hat]
          rw [hres] at h1
          simp [missingTimestampMsg, expiredMsg] at h1
        | some t =>
          by_cases hlt : LINK_EXPIRY_MS < now - t
          · have hres : downloadResume db i now =
                (Resp.forbidden expiredMsg, updateById db i expireRowClear) := by
              simp [downloadResume, hfind, hst, hat, hlt]
            rw [hres] at h2
            rw [show (Resp.forbidden expiredMsg, updateById db i expireRowClear).2 =
                  updateById db i expireRowClear from rfl] at h2
            rw [findById_updateById db i expireRowClear (fun x => rfl), hfind] at h2
            have hr : expireRowClear r0 = r := by
              simpa using h2
            rw [← hr]
            exact ⟨rfl, rfl⟩
          · have hres : downloadResume db i now =
                (Resp.fileDownload "Chakit_Resume.pdf", db) := by
              simp [downloadResume, hfind, hst, hat, hlt]
            rw [hres] at h1
            simp at h1
      · have hres : downloadResume db i now = (Resp.forbidden notApprovedMsg, db) := by
          simp [downloadResume, hfind, hst]
        rw [hres] at h1
        simp [notApprovedMsg, expiredMsg] at h1
  · cases hfind : findById db i with
    | none => simp [autoExpireCheck, hfind]
    | some r0 =>
      by_cases hst : r0.status = "approved"
      · rw [show autoExpireCheck db i = updateById db i expireRowKeep from by
          simp [autoExpireCheck, hfind, hst]]
        exact updateById_map_approved_at db i expireRowKeep (fun x => rfl)
      · rw [show autoExpireCheck db i = db from by
          simp [autoExpireCheck, hfind, hst]]

/-- Witness for the amended C1: a late Download on the approved fixture
writes an expired row with a null timestamp, and the background check on
the same store preserves the `approved_at` column. -/
theorem C1_witness :
    (rqExpired.status = "expired" ∧ rqExpired.approved_at = none)
  ∧ (autoExpireCheck [rqApproved] 1).map Request.approved_at =
      [rqApproved].map Request.approved_at :=
  C1_expiry_paths [rqApproved] 1 300000 rqExpired (by decide) (by decide)

/-- Counterexample to claim C3 as stated: Approve on a row stored as
`expired` moves it back to `approved`, so there is a transition out of
`expired`. -/
theorem C3_counterexample :
    (findById (adminApprove ⟨[rqExpired], 2⟩ 1 100 true).2.db 1).map Request.status =
      some "approved" := by
  decide

/-- Claim C3 (amended): no operation returns a Request to `pending`, and
Submit and Download leave an `expired` row `expired` (GetStatus writes
nothing by construction); Approve, however, moves an existing `expired`
row back to `approved`. -/
theorem C3_expired_transitions (st : St) (i : Nat) (now now2 : Int)
    (mailOk mailOk2 adminSet : Bool) (name email reason : Option String) (r : Request)
    (hfind : findById st.db i = some r) (hexp : r.status = "expired") :
    downloadResume st.db i now = (Resp.forbidden notApprovedMsg, st.db)
  ∧ findById (requestResume st now2 name email reason adminSet mailOk2).2.db i = some r
  ∧ findById (adminApprove st i now mailOk).2.db i = some (approveRow now r) := by
  have hne : ¬ r.status = "approved" := by
    rw [hexp]
    decide
  refine ⟨by simp [downloadResume, hfind, hne], ?_, (adminApprove_db_found st i now mailOk r hfind).2⟩
  by_cases hb : (isBlank name || isBlank email || isBlank reason) = true
  · simp [requestResume, hb, hfind]
  · have hshape := (requestResume_shape st now2 name email reason adminSet mailOk2
      (Bool.not_eq_true _ ▸ hb)).1
    rw [hshape]
    exact findById_append st.db _ i r hfind

/-- Witness for the amended C3 on the expired fixture. -/
theorem C3_witness :
    downloadResume [rqExpired] 1 100 = (Resp.forbidden notApprovedMsg, [rqExpired])
  ∧ findById (requestResume ⟨[rqExpired], 2⟩ 60 (some "Bob") (some "b@x.com") (some "hi")
      true true).2.db 1 = some rqExpired
  ∧ findById (adminApprove ⟨[rqExpired], 2⟩ 1 100 true).2.db 1 = some (approveRow 100 rqExpired) :=
  C3_expired_transitions ⟨[rqExpired], 2⟩ 1 100 60 true true true
    (some "Bob") (some "b@x.com") (some "hi") rqExpired (by decide) rfl

/-- Counterexample to claim C2 as stated: with valid input and a failing
`sendMail`, Submit answers the generic 500 server error instead of the
201 with the new identifier, and Approve likewise answers 500 instead of
its confirmation. -/
theorem C2_counterexample :
    (requestResume ⟨[], 1⟩ 0 (some "Alice") (some "a@x.com") (some "review") true false).1 =
      Resp.serverError
  ∧ (adminApprove ⟨[rqPending], 2⟩ 1 10 false).1 = Resp.serverError := by
  refine ⟨by decide, by decide⟩

/-- Claim C2 (amended): a `sendMail` failure is caught by the handler's
generic catch and surfaced to the caller as the 500 server error — Submit
then does not return the new identifier and Approve does not return its
confirmation — although the database write has already been committed in
both handlers; only when the notification succeeds or is skipped do
Submit answer 201 with the fresh id and Approve its confirmation. -/
theorem C2_notification_failure (st : St) (now : Int) (n e rs : String)
    (adminSet mailOk : Bool) (i : Nat) (rq : Request)
    (hn : ¬ n = "") (he : ¬ e = "") (hr : ¬ rs = "")
    (hfind : findById st.db i = some rq) (hemail : ¬ rq.email = "") :
    (requestResume st now (some n) (some e) (some rs) adminSet mailOk).1 =
      (if adminSet && !mailOk then Resp.serverError else Resp.created st.nextId)
  ∧ (requestResume st now (some n) (some e) (some rs) adminSet mailOk).2.db =
      st.db ++ [newRow st now (some n) (some e) (some rs)]
  ∧ (adminApprove st i now mailOk).1 =
      (if mailOk then Resp.approvedHtml else Resp.serverError)
  ∧ (adminApprove st i now mailOk).2.db = updateById st.db i (approveRow now) := by
  have hvalid : (isBlank (some n) || isBlank (some e) || isBlank (some rs)) = false := by
    simp [isBlank, hn, he, hr]
  obtain ⟨hdb, hresp⟩ := requestResume_shape st now (some n) (some e) (some rs) adminSet mailOk hvalid
  refine ⟨hresp, by rw [hdb], ?_, ?_⟩
  · by_cases hm : mailOk <;> simp [adminApprove, hfind, hemail, hm]
  · rw [(adminApprove_db_found st i now mailOk rq hfind).1]

/-- Witness for the amended C2 with a failing notification: both
handlers answer the server error while the row is inserted and the
approval update committed. -/
theorem C2_witness :
    (requestResume ⟨[rqPending], 2⟩ 50 (some "Bob") (some "b@x.com") (some "hi") true false).1 =
      Resp.serverError
  ∧ (requestResume ⟨[rqPending], 2⟩ 50 (some "Bob") (some "b@x.com") (some "hi") true false).2.db =
      [rqPending] ++ [newRow ⟨[rqPending], 2⟩ 50 (some "Bob") (some "b@x.com") (some "hi")]
  ∧ (adminApprove ⟨[rqPending], 2⟩ 1 50 false).1 = Resp.serverError
  ∧ (adminApprove ⟨[rqPending], 2⟩ 1 50 false).2.db =
      updateById [rqPending] 1 (approveRow 50) :=
  C2_notification_failure ⟨[rqPending], 2⟩ 50 "Bob" "b@x.com" "hi" true false 1 rqPending
    (by decide) (by decide) (by decide) (by decide) (by decide)

/-- Counterexample to claim C8 as stated: on valid input with a failing
admin notification, Submit does create the row but answers the 500 server
error, not the fresh identifier. -/
theorem C8_counterexample :
    (requestResume ⟨[], 1⟩ 0 (some "Alice") (some "a@x.com") (some "review") true false).1 ≠
      Resp.created 1
  ∧ (requestResume ⟨[], 1⟩ 0 (some "Alice") (some "a@x.com") (some "review") true false).2.db.length
      = 1 := by
  refine ⟨by decide, by decide⟩

/-- Claim C8 (amended): Submit with an absent or empty field fails with
the validation error and persists nothing; on valid input it appends
exactly one `pending` row with null `approved_at`, the current creation
timestamp and a fresh id distinct from all previously issued ones, and it
returns that id with 201 unless the attempted admin notification failed,
in which case the caller gets the 500 server error (the row still
created). -/
theorem C8_submit (st : St) (now : Int) (name email reason : Option String)
    (adminSet mailOk : Bool) (hInv : ∀ x ∈ st.db, x.id < st.nextId) :
    ((isBlank name || isBlank email || isBlank reason) = true →
      requestResume st now name email reason adminSet mailOk = (Resp.validationError, st))
  ∧ ((isBlank name || isBlank email || isBlank reason) = false →
      ((requestResume st now name email reason adminSet mailOk).2.db =
          st.db ++ [newRow st now name email reason]
        ∧ (requestResume st now name email reason adminSet mailOk).2.nextId = st.nextId + 1
        ∧ (requestResume st now name email reason adminSet mailOk).1 =
            (if adminSet && !mailOk then Resp.serverError else Resp.created st.nextId)
        ∧ (newRow st now name email reason).status = "pending"
        ∧ (newRow st now name email reason).approved_at = none
        ∧ (newRow st now name email reason).created_at = now
        ∧ (newRow st now name email reason).id ∉ st.db.map Request.id
        ∧ ∀ x ∈ (requestResume st now name email reason adminSet mailOk).2.db,
            x.id < (requestResume st now name email reason adminSet mailOk).2.nextId)) := by
  constructor
  · intro hb
    simp [requestResume, hb]
  · intro hb
    obtain ⟨hdb, hresp⟩ := requestResume_shape st now name email reason adminSet mailOk hb
    have hfresh : (newRow st now name email reason).id ∉ st.db.map Request.id := by
      intro hmem
      obtain ⟨x, hx, hxid⟩ := List.mem_map.mp hmem
      have hxid' : x.id = st.nextId := hxid
      exact absurd hxid' (Nat.ne_of_lt (hInv x hx))
    refine ⟨by rw [hdb], by rw [hdb], hresp, rfl, rfl, rfl, hfresh, ?_⟩
    intro x hx
    rw [hdb] at hx ⊢
    rcases List.mem_append.mp hx with hx1 | hx1
    · exact Nat.lt_succ_of_lt (hInv x hx1)
    · rcases List.mem_singleton.mp hx1 with rfl
      exact Nat.lt_succ_self _

/-- Witness for the amended C8: a missing name is rejected with nothing
persisted, and a valid submission with the notification skipped answers
201 with the fresh id 2. -/
theorem C8_witness :
    requestResume ⟨[rqPending], 2⟩ 9 none (some "e@x") (some "r") true true =
      (Resp.validationError, ⟨[rqPending], 2⟩)
  ∧ (requestResume ⟨[rqPending], 2⟩ 9 (some "Bob") (some "b@x.com") (some "hi") false true).1 =
      Resp.created 2 :=
  ⟨(C8_submit ⟨[rqPending], 2⟩ 9 none (some "e@x") (some "r") true true (by decide)).1 rfl,
   ((C8_submit ⟨[rqPending], 2⟩ 9 (some "Bob") (some "b@x.com") (some "hi") false true
      (by decide)).2 rfl).2.2.1⟩
